import Mathlib

/-!
Shallow embedding of the job-orchestration engine (Python sources under
`src/orchestrator/`) and proofs about its specification claims.

Conventions of the embedding:
* Python `int` is `Int` (or `Nat` where the source guarantees non-negativity),
  Python `float` is modelled exactly as `ℚ`.
* `None` / nullable columns are `Option _`.
* A Python function that may raise models its result as `Except String _`
  (the string names the exception); code that catches all exceptions and
  encodes them returns plain values.
* Wall-clock instants are a `DateTime` structure holding the components the
  code reads (`datetime` comparison is lexicographic on the components).
* The user function dispatched by an executor is abstracted by its observed
  outcome (`CallOutcome`): either a returned value or a raised exception with
  message and formatted traceback.
-/

namespace Orchestrator

/-- `ExecutionStatus` enum from `core/execution.py`. -/
inductive ExecutionStatus where
  | PENDING
  | RUNNING
  | SUCCESS
  | FAILED
  | TIMEOUT
  deriving DecidableEq, Repr

/-- `JobType` enum from `core/job.py`. -/
inductive JobType where
  | SYNC
  | ASYNC
  | THREAD
  | PROCESS
  deriving DecidableEq, Repr

/-- JSON-encodable Python values, as far as the claims need them. -/
inductive PyValue where
  | vint (n : Int)
  | vstr (s : String)
  | vnone
  deriving DecidableEq, Repr

/-- The components of a `datetime.datetime` that the code reads.  `weekday`
is Python's `weekday()` (Monday = 0); it is derived data supplied with the
instant. -/
structure DateTime where
  year : Nat
  month : Nat
  day : Nat
  hour : Nat
  minute : Nat
  second : Nat
  weekday : Nat
  deriving DecidableEq, Repr

/-- `datetime` comparison `a <= b`: lexicographic on the components. -/
def DateTime.le (a b : DateTime) : Bool :=
  if a.year ≠ b.year then decide (a.year < b.year)
  else if a.month ≠ b.month then decide (a.month < b.month)
  else if a.day ≠ b.day then decide (a.day < b.day)
  else if a.hour ≠ b.hour then decide (a.hour < b.hour)
  else if a.minute ≠ b.minute then decide (a.minute < b.minute)
  else decide (a.second ≤ b.second)

/-- Decidable equality of `Except` values, used to evaluate the embedded
fallible functions on concrete inputs. -/
instance {ε α : Type} [DecidableEq ε] [DecidableEq α] :
    DecidableEq (Except ε α) := fun x y =>
  match x, y with
  | Except.ok a, Except.ok b =>
      if h : a = b then Decidable.isTrue (congrArg Except.ok h)
      else Decidable.isFalse (fun hc => h (by cases hc; rfl))
  | Except.ok _, Except.error _ =>
      Decidable.isFalse (fun hc => Except.noConfusion hc)
  | Except.error _, Except.ok _ =>
      Decidable.isFalse (fun hc => Except.noConfusion hc)
  | Except.error a, Except.error b =>
      if h : a = b then Decidable.isTrue (congrArg Except.error h)
      else Decidable.isFalse (fun hc => h (by cases hc; rfl))

/-- `ExecutionResult` dataclass from `core/execution.py`. -/
structure ExecutionResult where
  status : ExecutionStatus
  result : Option PyValue := none
  error : Option String := none
  traceback : Option String := none
  duration_seconds : Option ℚ := none
  deriving DecidableEq, Repr

/-- `Execution` dataclass from `core/execution.py` (in-memory object). -/
structure Execution where
  job_id : Nat
  id : Option Nat := none
  status : ExecutionStatus := ExecutionStatus.PENDING
  attempt : Int := 1
  started_at : Option DateTime := none
  completed_at : Option DateTime := none
  duration_seconds : Option ℚ := none
  result : Option PyValue := none
  error_message : Option String := none
  traceback : Option String := none
  deriving DecidableEq, Repr

/-- `Job` dataclass from `core/job.py` (in-memory object).  The `function`
attribute is a callable in Python; here only its presence matters (rows
loaded from the store carry `none`), so it is modelled as an opaque token.
Python dataclasses do not enforce their annotations, and
`JobRepository.get_job` actually assigns a string to `max_retries` and an
optional integer to `idempotency_key` (see its column shift), so these two
fields are dynamically typed (`PyValue`); `args`/`kwargs` carry the source
text of the decoded JSON payload. -/
structure Job where
  name : String
  function : Option String
  id : Option Nat := none
  args : String := "[]"
  kwargs : String := "{}"
  job_type : JobType := JobType.SYNC
  max_retries : PyValue := PyValue.vint 3
  timeout_seconds : Option Int := none
  idempotency_key : Option PyValue := none
  deriving DecidableEq, Repr

/-! ## `json.loads` — document acceptance

`JobRepository.get_job` feeds stored text to `json.loads`, whose failure
(`json.JSONDecodeError`) decides claims C4 and C10, so its acceptance of a
document is modelled by a JSON parser (RFC 8259 grammar plus the `NaN`,
`Infinity` and `-Infinity` constants that Python accepts); the decoded value
itself is not needed, payloads being carried as their source text. -/

/-- The JSON whitespace characters. -/
def jsonWS (c : Char) : Bool :=
  c = ' ' || c = '\t' || c = '\n' || c = '\r'

/-- Skip JSON whitespace. -/
def skipWS (l : List Char) : List Char :=
  l.dropWhile jsonWS

/-- Consume an exact literal, returning the remainder. -/
def consumeLit : List Char → List Char → Option (List Char)
  | [], rest => some rest
  | _ :: _, [] => none
  | a :: ps, b :: rest => if a = b then consumeLit ps rest else none

/-- A hexadecimal digit. -/
def isHexDigit (c : Char) : Bool :=
  c.isDigit || ('a' ≤ c && c ≤ 'f') || ('A' ≤ c && c ≤ 'F')

/-- The body of a JSON string after its opening quote: scan to the closing
quote, checking escapes and rejecting raw control characters. -/
def parseJsonString : List Char → Option (List Char)
  | [] => none
  | '"' :: rest => some rest
  | '\\' :: e :: rest =>
      if e = '"' || e = '\\' || e = '/' || e = 'b' || e = 'f' || e = 'n' ||
          e = 'r' || e = 't' then
        parseJsonString rest
      else if e = 'u' then
        match rest with
        | h1 :: h2 :: h3 :: h4 :: rest2 =>
            if isHexDigit h1 && isHexDigit h2 && isHexDigit h3 &&
                isHexDigit h4 then
              parseJsonString rest2
            else none
        | _ => none
      else none
  | c :: rest => if 32 ≤ c.toNat then parseJsonString rest else none

/-- One or more digits, returning the remainder past them. -/
def parseDigits1 : List Char → Option (List Char)
  | c :: rest => if c.isDigit then some (rest.dropWhile Char.isDigit) else none
  | [] => none

/-- The fraction/exponent tail of a JSON number. -/
def parseFracExp (l : List Char) : Option (List Char) :=
  let fracRes := match l with
    | '.' :: r => parseDigits1 r
    | _ => some l
  match fracRes with
  | none => none
  | some l2 =>
      match l2 with
      | 'e' :: r =>
          parseDigits1 (match r with
            | '+' :: rr => rr
            | '-' :: rr => rr
            | _ => r)
      | 'E' :: r =>
          parseDigits1 (match r with
            | '+' :: rr => rr
            | '-' :: rr => rr
            | _ => r)
      | _ => some l2

/-- A JSON number: optional minus, `0` or a non-zero-led digit run, then
fraction and exponent. -/
def parseJsonNumber (l : List Char) : Option (List Char) :=
  let l1 := match l with
    | '-' :: r => r
    | _ => l
  match l1 with
  | '0' :: r => parseFracExp r
  | c :: r =>
      if c.isDigit then parseFracExp (r.dropWhile Char.isDigit) else none
  | [] => none

mutual

/-- A JSON value.  `fuel` only bounds the recursion; `2 * length + 8` is
ample since every recursive step first consumes input. -/
def parseJsonValue : Nat → List Char → Option (List Char)
  | 0, _ => none
  | fuel + 1, l =>
      match l with
      | [] => none
      | '{' :: rest => parseJsonMembers fuel (skipWS rest) true
      | '[' :: rest => parseJsonElements fuel (skipWS rest) true
      | '"' :: rest => parseJsonString rest
      | 't' :: rest => consumeLit ['r', 'u', 'e'] rest
      | 'f' :: rest => consumeLit ['a', 'l', 's', 'e'] rest
      | 'n' :: rest => consumeLit ['u', 'l', 'l'] rest
      | 'N' :: rest => consumeLit ['a', 'N'] rest
      | 'I' :: rest => consumeLit ['n', 'f', 'i', 'n', 'i', 't', 'y'] rest
      | '-' :: 'I' :: rest =>
          consumeLit ['n', 'f', 'i', 'n', 'i', 't', 'y'] rest
      | _ => parseJsonNumber l

/-- The elements of a JSON array after `[`. -/
def parseJsonElements : Nat → List Char → Bool → Option (List Char)
  | 0, _, _ => none
  | fuel + 1, l, first =>
      match l with
      | ']' :: rest => if first then some rest else none
      | _ =>
          match parseJsonValue fuel l with
          | none => none
          | some v =>
              match skipWS v with
              | ',' :: r => parseJsonElements fuel (skipWS r) false
              | ']' :: rest => some rest
              | _ => none

/-- The members of a JSON object after `{`. -/
def parseJsonMembers : Nat → List Char → Bool → Option (List Char)
  | 0, _, _ => none
  | fuel + 1, l, first =>
      match l with
      | '}' :: rest => if first then some rest else none
      | '"' :: rest =>
          match parseJsonString rest with
          | none => none
          | some afterKey =>
              match skipWS afterKey with
              | ':' :: r =>
                  match parseJsonValue fuel (skipWS r) with
                  | none => none
                  | some v =>
                      match skipWS v with
                      | ',' :: r2 => parseJsonMembers fuel (skipWS r2) false
                      | '}' :: rest2 => some rest2
                      | _ => none
              | _ => none
      | _ => none

end

/-- Whether `json.loads` accepts the document `s` (a full value with only
whitespace around it); `false` models the raised `json.JSONDecodeError`. -/
def json_loads_ok (s : String) : Bool :=
  match parseJsonValue (2 * s.length + 8) (skipWS s.data) with
  | some rest => (skipWS rest).isEmpty
  | none => false

end Orchestrator

namespace Orchestrator

/-! ## `resilience/retry.py` — `RetryStrategy` -/

/-- Constructor parameters of `RetryStrategy`. -/
structure RetryStrategy where
  max_retries : Int := 3
  backoff_base : ℚ := 2
  initial_delay : ℚ := 1
  max_delay : ℚ := 60
  deriving DecidableEq, Repr

/-- `RetryStrategy.get_delay`: `0` for `attempt <= 0`, otherwise
`min (initial_delay * backoff_base ^ (attempt - 1)) max_delay`. -/
def RetryStrategy.get_delay (s : RetryStrategy) (attempt : Int) : ℚ :=
  if attempt ≤ 0 then 0
  else min (s.initial_delay * s.backoff_base ^ (attempt - 1).toNat) s.max_delay

/-- `RetryStrategy.should_retry`: no retry on SUCCESS, no retry once
`attempt >= max_retries`, retry otherwise. -/
def RetryStrategy.should_retry (s : RetryStrategy) (attempt : Int)
    (result : ExecutionResult) : Bool :=
  if result.status = ExecutionStatus.SUCCESS then false
  else if attempt ≥ s.max_retries then false
  else true

/-- The `while True` loop body of `RetryStrategy.execute_with_retry`,
starting at attempt number `attempt`.  The executor function is indexed by
the attempt number it is called at; the second component of the value is the
list of attempt numbers at which the executor function was invoked, in
order.  The retry sleep only passes time and is not observable here. -/
def RetryStrategy.retry_loop (s : RetryStrategy) (f : Nat → ExecutionResult)
    (attempt : Nat) : ExecutionResult × List Nat :=
  let r := f attempt
  if s.should_retry attempt r then
    let p := s.retry_loop f (attempt + 1)
    (p.1, attempt :: p.2)
  else
    (r, [attempt])
  termination_by (s.max_retries - attempt).toNat
  decreasing_by
    simp only [RetryStrategy.should_retry] at *
    split at * <;> simp_all
    omega

/-- `RetryStrategy.execute_with_retry` called without a `max_retries`
override: the loop starts with `attempt = 1`.  (The local `max_tries`
variable in the source is computed but never used; `should_retry` reads
`self.max_retries`.) -/
def RetryStrategy.execute_with_retry (s : RetryStrategy)
    (f : Nat → ExecutionResult) : ExecutionResult × List Nat :=
  s.retry_loop f 1

/-! ## `db/repository.py` — persisted rows and `JobRepository` -/

/-- A row of the `jobs` table. -/
structure JobRow where
  id : Nat
  name : String
  function_path : String
  args_json : Option String
  kwargs_json : Option String
  job_type : JobType
  max_retries : Int
  timeout_seconds : Option Int
  idempotency_key : Option String
  deriving DecidableEq, Repr

/-- A row of the `executions` table. -/
structure ExecutionRow where
  id : Nat
  job_id : Nat
  status : ExecutionStatus
  attempt : Int
  started_at : Option DateTime
  completed_at : Option DateTime
  duration_seconds : Option ℚ
  result : Option PyValue
  error_message : Option String
  traceback : Option String
  deriving DecidableEq, Repr

/-- A row of the `schedules` table. -/
structure ScheduleRow where
  id : Nat
  job_id : Nat
  cron_expression : Option String
  run_at : Option DateTime
  enabled : Bool
  deriving DecidableEq, Repr

/-- The SQLite database: the three tables plus the autoincrement cursor of
`executions.id`. -/
structure Store where
  jobs : List JobRow
  executions : List ExecutionRow
  schedules : List ScheduleRow
  next_execution_id : Nat
  deriving Repr

/-- The stored value of the `job_type` column (`JobType.value`). -/
def JobType.value : JobType → String
  | JobType.SYNC => "sync"
  | JobType.ASYNC => "async"
  | JobType.THREAD => "thread"
  | JobType.PROCESS => "process"

/-- The `JobType(x)` enum constructor call: `none` models the `ValueError`
on anything that is not a member value. -/
def pyJobType : Option String → Option JobType
  | some "sync" => some JobType.SYNC
  | some "async" => some JobType.ASYNC
  | some "thread" => some JobType.THREAD
  | some "process" => some JobType.PROCESS
  | _ => none

/-- `JobRepository.get_job`: `SELECT * FROM jobs WHERE id = ?`, rebuilding a
`Job` from the row — but the row indices are shifted one column early
against the `models.py` order `id, name, function_path, args_json,
kwargs_json, job_type, max_retries, timeout_seconds, idempotency_key, …`:

  * `args = json.loads(row[2] or "[]")` reads `function_path`, raising
    `json.JSONDecodeError` whenever it is not a JSON document (every row
    `create_job` writes has a `module.symbol` path there);
  * `kwargs = json.loads(row[3] or "{}")` reads `args_json`;
  * `job_type = JobType(row[4])` reads `kwargs_json`, raising `ValueError`
    unless that text happens to be a `JobType` member value;
  * `max_retries = row[5]` receives the `job_type` string,
    `timeout_seconds = row[6]` the `max_retries` integer, and
    `idempotency_key = row[7]` the `timeout_seconds` column.

`function` is always `None`.  The argument evaluation (and so the raising)
order is args, kwargs, job_type. -/
def JobRepository.get_job (s : Store) (job_id : Nat) :
    Except String (Option Job) :=
  match s.jobs.find? (fun r => r.id = job_id) with
  | none => Except.ok none
  | some row =>
      let argsSrc := if row.function_path = "" then "[]" else row.function_path
      if !json_loads_ok argsSrc then Except.error "json.JSONDecodeError"
      else
        let kwargsSrc := match row.args_json with
          | none => "{}"
          | some a => if a = "" then "{}" else a
        if !json_loads_ok kwargsSrc then Except.error "json.JSONDecodeError"
        else
          match pyJobType row.kwargs_json with
          | none => Except.error "ValueError"
          | some jt =>
              Except.ok (some
                { id := some row.id
                  name := row.name
                  function := none
                  args := argsSrc
                  kwargs := kwargsSrc
                  job_type := jt
                  max_retries := PyValue.vstr row.job_type.value
                  timeout_seconds := some row.max_retries
                  idempotency_key :=
                    row.timeout_seconds.map (fun n => PyValue.vint n) })

/-- `JobRepository.create_execution`: inserts a PENDING row with
`attempt = 1` and `started_at = datetime.now()`, returning the new id. -/
def JobRepository.create_execution (s : Store) (job_id : Nat)
    (now : DateTime) : Store × Nat :=
  let eid := s.next_execution_id
  ({ s with
      executions := s.executions ++
        [{ id := eid, job_id := job_id, status := ExecutionStatus.PENDING,
           attempt := 1, started_at := some now, completed_at := none,
           duration_seconds := none, result := none, error_message := none,
           traceback := none }]
      next_execution_id := eid + 1 },
   eid)

/-- `JobRepository.update_execution`: overwrites `status`, `attempt`,
`completed_at`, `duration_seconds`, `result_json`, `error_message` and
`traceback` of the row whose `id` matches (`job_id` and `started_at` are not
touched); returns whether a row was updated. -/
def JobRepository.update_execution (s : Store) (e : Execution) :
    Store × Bool :=
  ({ s with
      executions := s.executions.map (fun r =>
        if some r.id = e.id then
          { r with status := e.status, attempt := e.attempt,
                   completed_at := e.completed_at,
                   duration_seconds := e.duration_seconds,
                   result := e.result, error_message := e.error_message,
                   traceback := e.traceback }
        else r) },
   s.executions.any (fun r => some r.id = e.id))

/-- `completed_at DESC` comparison used by `ORDER BY` in SQLite: NULL sorts
as the smallest value, so with `DESC` the NULLs come last. -/
def optCompletedLt (a b : Option DateTime) : Bool :=
  match a, b with
  | none, none => false
  | none, some _ => true
  | some _, none => false
  | some x, some y => DateTime.le x y && !(DateTime.le y x)

/-- `ORDER BY completed_at DESC LIMIT 1` over a result set: the row with the
greatest `completed_at` (first such row on ties). -/
def pickLatestCompleted (rows : List ExecutionRow) : Option ExecutionRow :=
  rows.foldl
    (fun acc r =>
      match acc with
      | none => some r
      | some a => if optCompletedLt a.completed_at r.completed_at then some r
                  else acc)
    none

/-- `JobRepository.find_idempotent_execution`: for a falsy key return
`None`; otherwise find the (first) job with that `idempotency_key`, then the
most recently completed SUCCESS execution of that job. -/
def JobRepository.find_idempotent_execution (s : Store)
    (idempotency_key : String) : Option ExecutionRow :=
  if idempotency_key = "" then none
  else
    match s.jobs.find? (fun j => j.idempotency_key = some idempotency_key) with
    | none => none
    | some j =>
        pickLatestCompleted (s.executions.filter
          (fun e => e.job_id = j.id ∧ e.status = ExecutionStatus.SUCCESS))

/-! ## `resilience/idempotency.py` — `IdempotencyManager` -/

/-- `IdempotencyManager.check_idempotency`: `None` for a falsy key;
otherwise, when a prior SUCCESS execution exists for the key, a synthesised
SUCCESS `ExecutionResult` carrying its `result` and `duration_seconds`. -/
def IdempotencyManager.check_idempotency (s : Store)
    (idempotency_key : String) : Option ExecutionResult :=
  if idempotency_key = "" then none
  else
    match JobRepository.find_idempotent_execution s idempotency_key with
    | some e =>
        some { status := ExecutionStatus.SUCCESS, result := e.result,
               error := none, traceback := none,
               duration_seconds := e.duration_seconds }
    | none => none

/-! ## `resilience/recovery.py` — `RecoveryManager` -/

/-- `RecoveryManager.recover`: select the ids of all RUNNING executions; if
there are none return 0 without writing; otherwise set
`status = FAILED` for exactly those ids (no other column is written, in
particular `completed_at` and `error_message` are untouched) and return how
many ids were selected. -/
def RecoveryManager.recover (s : Store) : Store × Nat :=
  let ids := (s.executions.filter
    (fun r => r.status = ExecutionStatus.RUNNING)).map (fun r => r.id)
  if ids.isEmpty then (s, 0)
  else
    ({ s with
        executions := s.executions.map (fun r =>
          if r.id ∈ ids then { r with status := ExecutionStatus.FAILED }
          else r) },
     ids.length)

/-! ## `executors/*.py` — the four executors

The user function's behaviour is abstracted by the outcome the executor
observes: the call returns a value, or raises an exception with message
`str(e)` and formatted stack `traceback.format_exc()`.  Wall-clock duration
is an input (`dur`).  For the pool-backed executors, whether the wait on the
future outlived the deadline is the boolean input `exceeded`. -/

/-- Observed outcome of invoking the user function. -/
inductive CallOutcome where
  | ok (v : PyValue)
  | exn (msg : String) (tb : String)
  deriving DecidableEq, Repr

/-- Shared `try/except Exception` shape of the executors: a returned value
becomes SUCCESS, a raised exception becomes FAILED carrying message and
traceback. -/
def encodeOutcome (o : CallOutcome) (dur : ℚ) : ExecutionResult :=
  match o with
  | CallOutcome.ok v =>
      { status := ExecutionStatus.SUCCESS, result := some v,
        duration_seconds := some dur }
  | CallOutcome.exn msg tb =>
      { status := ExecutionStatus.FAILED, error := some msg,
        traceback := some tb, duration_seconds := some dur }

/-- Python truthiness of `job.timeout_seconds` (`if job.timeout_seconds:`):
`None` and `0` are falsy. -/
def timeoutTruthy : Option Int → Bool
  | none => false
  | some n => n ≠ 0

/-- `SyncExecutor.execute`: runs the function on the caller and encodes the
outcome; `timeout_seconds` is never consulted. -/
def SyncExecutor.execute (_job : Job) (o : CallOutcome) (dur : ℚ) :
    ExecutionResult :=
  encodeOutcome o dur

/-- `AsyncExecutor.execute`: awaits the function (offloading sync functions
to a thread) and encodes the outcome exactly as the sync executor does;
`timeout_seconds` is never consulted and no TIMEOUT branch exists. -/
def AsyncExecutor.execute (_job : Job) (o : CallOutcome) (dur : ℚ) :
    ExecutionResult :=
  encodeOutcome o dur

/-- `ThreadExecutor.execute`: when `job.timeout_seconds` is truthy the wait
uses `future.result(timeout=...)`; its expiry (`exceeded`) is caught as
`FuturesTimeoutError` and encoded as TIMEOUT with the timeout value in the
error string.  Otherwise the eventual outcome is encoded as usual. -/
def ThreadExecutor.execute (job : Job) (exceeded : Bool) (o : CallOutcome)
    (dur : ℚ) : ExecutionResult :=
  if timeoutTruthy job.timeout_seconds && exceeded then
    { status := ExecutionStatus.TIMEOUT,
      error := some ("Job timed out after " ++
        toString (job.timeout_seconds.getD 0) ++ "s"),
      duration_seconds := some dur }
  else
    encodeOutcome o dur

/-- `ProcessExecutor.execute`: same wait/timeout shape as the thread
executor (a non-picklable submission raises and is encoded FAILED like any
other exception, covered by the `exn` outcome). -/
def ProcessExecutor.execute (job : Job) (exceeded : Bool) (o : CallOutcome)
    (dur : ℚ) : ExecutionResult :=
  if timeoutTruthy job.timeout_seconds && exceeded then
    { status := ExecutionStatus.TIMEOUT,
      error := some ("Job timed out after " ++
        toString (job.timeout_seconds.getD 0) ++ "s"),
      duration_seconds := some dur }
  else
    encodeOutcome o dur

/-! ## `core/orchestrator.py` — `Orchestrator.execute_job`

The executor chosen by `ExecutorManager.get_executor` is abstracted as an
environment that produces the result of the n-th dispatch and counts how
often the user function has been dispatched. -/

/-- The executor side of `execute_job`: `fn k` is the `ExecutionResult` of
the (k+1)-th dispatch of the job's user function; `calls` counts the
dispatches so far. -/
structure ExecEnv where
  fn : Nat → ExecutionResult
  calls : Nat

/-- One `await executor.execute(job)`: produces the next result and bumps
the dispatch counter. -/
def ExecEnv.dispatch (env : ExecEnv) : ExecutionResult × ExecEnv :=
  (env.fn env.calls, { env with calls := env.calls + 1 })

/-- `Orchestrator.execute_job`: insert a PENDING execution row, build the
in-memory `Execution` (status RUNNING, `started_at = None`), dispatch the
executor unconditionally (no idempotency check, no retry loop), copy
`status`/`result`/`error` from the `ExecutionResult` (never `completed_at`,
which stays `None`), persist via `update_execution`, and return the
execution. -/
def execute_job (s : Store) (env : ExecEnv) (now : DateTime)
    (job : Job) : Store × ExecEnv × Execution :=
  let c := JobRepository.create_execution s (job.id.getD 0) now
  let execution : Execution :=
    { id := some c.2, job_id := job.id.getD 0,
      status := ExecutionStatus.RUNNING, started_at := none }
  let d := env.dispatch
  let execution1 :=
    { execution with status := d.1.status, result := d.1.result,
                     error_message := d.1.error }
  let u := JobRepository.update_execution c.1 execution1
  (u.1, d.2, execution1)

/-! ## `scheduler/cron_parser.py` — `CronParser`

String processing is carried out on the character list of the string, with
structural recursion, mirroring the regular expressions of the source. -/

/-- Python `str.strip()`: drop whitespace from both ends. -/
def trimChars (l : List Char) : List Char :=
  ((l.dropWhile Char.isWhitespace).reverse.dropWhile Char.isWhitespace).reverse

/-- The `\S+` groups of a `(\S+)(\s+(\S+))*` match: maximal runs of
non-whitespace characters.  `acc` holds the current run, reversed. -/
def tokensAux : List Char → List Char → List (List Char)
  | [], acc => if acc.isEmpty then [] else [acc.reverse]
  | c :: rest, acc =>
      if c.isWhitespace then
        if acc.isEmpty then tokensAux rest []
        else acc.reverse :: tokensAux rest []
      else tokensAux rest (c :: acc)

/-- Python `str.split(sep)` for a one-character separator (keeps empty
pieces, like `"-5".split("-") == ["", "5"]`). -/
def splitOnCharAux (sep : Char) : List Char → List Char → List (List Char)
  | [], acc => [acc.reverse]
  | c :: rest, acc =>
      if c = sep then acc.reverse :: splitOnCharAux sep rest []
      else splitOnCharAux sep rest (c :: acc)

/-- Matches `\d+` anchored: non-empty, all digits. -/
def isDigits (l : List Char) : Bool :=
  !l.isEmpty && l.all Char.isDigit

/-- Value of an all-digits character run (`int(x)` on a `\d+` match). -/
def natOfDigits (l : List Char) : Nat :=
  l.foldl (fun n c => n * 10 + (c.toNat - 48)) 0

/-- Python `int(x)` on a string piece: optional surrounding whitespace,
optional sign, then digits; `none` models the `ValueError`. -/
def pyInt (l : List Char) : Option Int :=
  let t := trimChars l
  if isDigits t then some (natOfDigits t)
  else
    match t with
    | '-' :: ds => if isDigits ds then some (-(natOfDigits ds : Int)) else none
    | '+' :: ds => if isDigits ds then some (natOfDigits ds) else none
    | _ => none

/-- `CronSchedule` dataclass: the five fields, kept as strings. -/
structure CronSchedule where
  minute : String := "*"
  hour : String := "*"
  day_of_month : String := "*"
  month : String := "*"
  day_of_week : String := "*"
  deriving DecidableEq, Repr

/-- `CronParser.parse`: strip; any expression starting with `*/` is taken by
the shorthand branch and becomes the `minute` field of an otherwise-`*`
schedule; otherwise exactly five whitespace-separated fields
(`PATTERN_CRON_FULL`) are required; anything else raises `ValueError`. -/
def CronParser.parse (cron_expr : String) : Except String CronSchedule :=
  let e := trimChars cron_expr.data
  if ['*', '/'].isPrefixOf e then
    Except.ok { minute := String.mk e }
  else
    match tokensAux e [] with
    | [a, b, c, d, f] =>
        Except.ok { minute := String.mk a, hour := String.mk b,
                    day_of_month := String.mk c, month := String.mk d,
                    day_of_week := String.mk f }
    | _ => Except.error ("Invalid cron expression: " ++ String.mk e)

/-- `CronParser._match_field`: `*`, then `*/N`, then exact value, then
`A-B` range, then comma list; an unrecognised field matches nothing.  `*/0`
raises `ZeroDivisionError` (`value % 0`); a comma list with a non-integer
element raises `ValueError` (`int(x)`). -/
def CronParser.match_field (field : String) (value : Nat) :
    Except String Bool :=
  let l := field.data
  if l = ['*'] then Except.ok true
  else if ['*', '/'].isPrefixOf l && isDigits (l.drop 2) then
    let n := natOfDigits (l.drop 2)
    if n = 0 then Except.error "ZeroDivisionError"
    else Except.ok (value % n = 0)
  else if isDigits l then
    Except.ok (value = natOfDigits l)
  else
    match splitOnCharAux '-' l [] with
    | [a, b] =>
        if isDigits a && isDigits b then
          Except.ok (natOfDigits a ≤ value ∧ value ≤ natOfDigits b)
        else if l.contains ',' then
          match (splitOnCharAux ',' l []).mapM pyInt with
          | some vals => Except.ok ((value : Int) ∈ vals)
          | none => Except.error "ValueError"
        else Except.ok false
    | _ =>
        if l.contains ',' then
          match (splitOnCharAux ',' l []).mapM pyInt with
          | some vals => Except.ok ((value : Int) ∈ vals)
          | none => Except.error "ValueError"
        else Except.ok false

/-- `CronParser.should_run_now`: the five fields matched against
`now.minute`, `now.hour`, `now.day`, `now.month` and `now.weekday()`
(Monday = 0), combined with Python's short-circuiting `and`. -/
def CronParser.should_run_now (schedule : CronSchedule) (now : DateTime) :
    Except String Bool := do
  let b1 ← CronParser.match_field schedule.minute now.minute
  if !b1 then return false
  let b2 ← CronParser.match_field schedule.hour now.hour
  if !b2 then return false
  let b3 ← CronParser.match_field schedule.day_of_month now.day
  if !b3 then return false
  let b4 ← CronParser.match_field schedule.month now.month
  if !b4 then return false
  CronParser.match_field schedule.day_of_week now.weekday

/-! ## `scheduler/scheduler.py` — `Scheduler` -/

/-- Python truthiness of a nullable string column. -/
def truthyStr : Option String → Bool
  | none => false
  | some s => s ≠ ""

/-- `Scheduler._should_execute`: a truthy `run_at` fires iff
`now >= run_at` (no already-fired check); otherwise a truthy
`cron_expression` is parsed and matched (either step may raise); otherwise
no firing. -/
def Scheduler.should_execute (schedule : ScheduleRow) (now : DateTime) :
    Except String Bool :=
  match schedule.run_at with
  | some run_at => Except.ok (DateTime.le run_at now)
  | none =>
      if truthyStr schedule.cron_expression then do
        let cs ← CronParser.parse (schedule.cron_expression.getD "")
        CronParser.should_run_now cs now
      else Except.ok false

/-- `Scheduler._enqueue_job`: load the job from the store (whose exceptions
propagate) and push it when found. -/
def Scheduler.enqueue_job (s : Store) (schedule : ScheduleRow)
    (queue : List Job) : Except String (List Job) :=
  match JobRepository.get_job s schedule.job_id with
  | Except.error e => Except.error e
  | Except.ok (some job) => Except.ok (queue ++ [job])
  | Except.ok none => Except.ok queue

/-- The `for schedule in schedules` loop of `Scheduler._tick`.  An exception
from `_should_execute` or `_enqueue_job` propagates out of `_tick` (it is
caught one level up in `_run_loop`), so the remaining schedules are skipped
while the enqueues already performed stand. -/
def Scheduler.tick_loop (s : Store) (now : DateTime) :
    List ScheduleRow → List Job → List Job
  | [], queue => queue
  | schedule :: rest, queue =>
      match Scheduler.should_execute schedule now with
      | Except.error _ => queue
      | Except.ok true =>
          match Scheduler.enqueue_job s schedule queue with
          | Except.error _ => queue
          | Except.ok queue2 => Scheduler.tick_loop s now rest queue2
      | Except.ok false => Scheduler.tick_loop s now rest queue

/-- `Scheduler._tick`: capture `now`, load the enabled schedules, and run
the loop against the queue. -/
def Scheduler.tick (s : Store) (now : DateTime) (queue : List Job) :
    List Job :=
  Scheduler.tick_loop s now (s.schedules.filter (fun r => r.enabled)) queue

/-! ## Claim C9 — retry delay formula, zero case, monotonicity, plateau -/

/-- The undamped delay `initial_delay * backoff_base ^ (attempt - 1)` is
monotone in `attempt` over the positive attempts. -/
theorem raw_delay_mono (s : RetryStrategy) (hi : 0 < s.initial_delay)
    (hb : 1 < s.backoff_base) {a b : Int} (_ha : 1 ≤ a) (hab : a ≤ b) :
    s.initial_delay * s.backoff_base ^ (a - 1).toNat ≤
      s.initial_delay * s.backoff_base ^ (b - 1).toNat := by
  apply mul_le_mul_of_nonneg_left _ hi.le
  exact pow_le_pow_right₀ hb.le (by omega)

/-- C9: for a retry strategy with `initial_delay > 0`, `backoff_base > 1`
and `max_delay ≥ initial_delay`, `get_delay attempt` equals
`min (initial_delay * backoff_base ^ (attempt - 1)) max_delay` for
`attempt ≥ 1`, equals `0` for `attempt ≤ 0`, is monotonically non-decreasing
in `attempt`, and once it reaches `max_delay` it stays there. -/
theorem get_delay_spec (s : RetryStrategy) (hi : 0 < s.initial_delay)
    (hb : 1 < s.backoff_base) (hm : s.initial_delay ≤ s.max_delay) :
    (∀ a : Int, a ≤ 0 → s.get_delay a = 0) ∧
    (∀ a : Int, 1 ≤ a →
      s.get_delay a =
        min (s.initial_delay * s.backoff_base ^ (a - 1).toNat) s.max_delay) ∧
    (∀ a b : Int, a ≤ b → s.get_delay a ≤ s.get_delay b) ∧
    (∀ a b : Int, 1 ≤ a → a ≤ b → s.get_delay a = s.max_delay →
      s.get_delay b = s.max_delay) := by
  have hb0 : (0 : ℚ) < s.backoff_base := lt_trans one_pos hb
  have hraw : ∀ a : Int, 0 < s.initial_delay * s.backoff_base ^ (a - 1).toNat :=
    fun a => mul_pos hi (pow_pos hb0 _)
  have hmax : (0 : ℚ) ≤ s.max_delay := le_trans hi.le hm
  refine ⟨fun a ha => by simp [RetryStrategy.get_delay, ha], ?_, ?_, ?_⟩
  · intro a ha
    simp only [RetryStrategy.get_delay, if_neg (by omega : ¬ a ≤ 0)]
  · intro a b hab
    by_cases ha : a ≤ 0
    · rw [show s.get_delay a = 0 by simp [RetryStrategy.get_delay, ha]]
      by_cases hbz : b ≤ 0
      · simp [RetryStrategy.get_delay, hbz]
      · simp only [RetryStrategy.get_delay, if_neg hbz]
        exact le_min (hraw b).le hmax
    · have h1a : 1 ≤ a := by omega
      simp only [RetryStrategy.get_delay, if_neg (by omega : ¬ a ≤ 0),
        if_neg (by omega : ¬ b ≤ 0)]
      exact min_le_min (raw_delay_mono s hi hb h1a hab) le_rfl
  · intro a b h1a hab heq
    simp only [RetryStrategy.get_delay, if_neg (by omega : ¬ a ≤ 0)] at heq
    have hle : s.max_delay ≤ s.initial_delay * s.backoff_base ^ (a - 1).toNat :=
      min_eq_right_iff.mp heq
    have : s.max_delay ≤ s.initial_delay * s.backoff_base ^ (b - 1).toNat :=
      le_trans hle (raw_delay_mono s hi hb h1a hab)
    simp only [RetryStrategy.get_delay, if_neg (by omega : ¬ b ≤ 0)]
    exact min_eq_right this

/-- C9 witness: the default strategy (base 2, initial 1, cap 60) at concrete
attempts. -/
theorem get_delay_spec_witness :
    RetryStrategy.get_delay ⟨3, 2, 1, 60⟩ (-1) = 0 ∧
    RetryStrategy.get_delay ⟨3, 2, 1, 60⟩ 3 ≤
      RetryStrategy.get_delay ⟨3, 2, 1, 60⟩ 7 ∧
    RetryStrategy.get_delay ⟨3, 2, 1, 60⟩ 2 =
      min ((1 : ℚ) * 2 ^ 1) 60 := by
  have h := get_delay_spec ⟨3, 2, 1, 60⟩ (by norm_num) (by norm_num)
    (by norm_num)
  refine ⟨h.1 (-1) (by norm_num), h.2.2.1 3 7 (by norm_num), ?_⟩
  simpa using h.2.1 2 (by norm_num)

/-! ## Claim C2 — number of executor invocations under retry -/

/-- An executor function every call of which fails. -/
def alwaysFail : Nat → ExecutionResult :=
  fun _ => { status := ExecutionStatus.FAILED }

/-- C2 counterexample: with `max_retries = 3` (the default) and an
always-failing executor function, `execute_with_retry` invokes the function
at attempts 1, 2, 3 — three times, not `3 + 1` as claimed. -/
theorem execute_with_retry_three_attempts :
    ((⟨3, 2, 1, 60⟩ : RetryStrategy).execute_with_retry alwaysFail).2 =
      [1, 2, 3] ∧
    [1, 2, 3] ≠ List.range' 1 (3 + 1) := by
  constructor
  · simp [RetryStrategy.execute_with_retry, RetryStrategy.retry_loop,
      RetryStrategy.should_retry, alwaysFail]
  · decide

/-- The retry loop starting at attempt `a` with an always-failing executor
function performs exactly the attempts `a, a+1, …, max(max_retries, 1)`. -/
theorem retry_loop_log (s : RetryStrategy) (f : Nat → ExecutionResult)
    (hf : ∀ n, (f n).status ≠ ExecutionStatus.SUCCESS) :
    ∀ (k a : Nat), 1 ≤ a → (a : Int) + k = max s.max_retries 1 →
      (s.retry_loop f a).2 = List.range' a (k + 1) := by
  intro k
  induction k with
  | zero =>
      intro a ha hk
      rw [RetryStrategy.retry_loop]
      have hstop : ¬ s.should_retry a (f a) = true := by
        simp only [RetryStrategy.should_retry]
        have : (a : Int) ≥ s.max_retries := by omega
        simp [hf a, this]
      simp [hstop, List.range']
  | succ k ih =>
      intro a ha hk
      rw [RetryStrategy.retry_loop]
      have hgo : s.should_retry a (f a) = true := by
        simp only [RetryStrategy.should_retry]
        have h1 : ¬ (a : Int) ≥ s.max_retries := by omega
        simp [hf a, h1]
      have hrec := ih (a + 1) (by omega) (by push_cast; omega)
      simp only [hgo, if_true]
      simp [hrec, List.range']

/-- C2 amended: with `max_retries = m` and an executor function whose every
call returns a non-SUCCESS result, `execute_with_retry` invokes the function
exactly `max m 1` times, at contiguous attempts `1, …, max m 1` (that is,
`m` total attempts for `m ≥ 1`, not `m + 1`: `should_retry` stops as soon as
`attempt ≥ max_retries`). -/
theorem execute_with_retry_attempt_count (s : RetryStrategy)
    (f : Nat → ExecutionResult)
    (hf : ∀ n, (f n).status ≠ ExecutionStatus.SUCCESS) :
    (s.execute_with_retry f).2 = List.range' 1 (max s.max_retries 1).toNat := by
  have h := retry_loop_log s f hf ((max s.max_retries 1).toNat - 1) 1
    (by omega) (by omega)
  rw [RetryStrategy.execute_with_retry, h]
  congr 1
  omega

/-- C2 witness: `max_retries = 2` with an always-failing function yields
attempts `[1, 2]`. -/
theorem execute_with_retry_attempt_count_witness :
    ((⟨2, 2, 1, 60⟩ : RetryStrategy).execute_with_retry alwaysFail).2 =
      [1, 2] := by
  have h := execute_with_retry_attempt_count ⟨2, 2, 1, 60⟩ alwaysFail
    (fun n => by simp [alwaysFail])
  rw [h]
  decide

/-! ## Claim C8 — the recovery sweep -/

/-- The ids selected by the recovery sweep's `SELECT`. -/
def runningIds (s : Store) : List Nat :=
  (s.executions.filter (fun r => r.status = ExecutionStatus.RUNNING)).map
    (fun r => r.id)

/-- Both branches of `recover` (empty and non-empty result set) leave the
executions table equal to the pointwise `RUNNING → FAILED` rewrite of the
selected ids. -/
theorem recover_executions_eq (s : Store) :
    (RecoveryManager.recover s).1.executions =
      s.executions.map (fun r =>
        if r.id ∈ runningIds s then { r with status := ExecutionStatus.FAILED }
        else r) := by
  simp only [RecoveryManager.recover, runningIds]
  split
  · next h =>
      have : ∀ r : ExecutionRow,
          r.id ∈ (s.executions.filter
            (fun r => r.status = ExecutionStatus.RUNNING)).map
              (fun r => r.id) → False := by
        simp_all [List.isEmpty_iff]
      conv_lhs => rw [show s.executions = s.executions.map id from
        (List.map_id _).symm]
      simp only [List.map_inj_left, id]
      intro r _
      rw [if_neg (fun hmem => this r hmem)]
  · rfl

/-- A RUNNING row's id is always among the selected ids. -/
theorem running_mem_runningIds (s : Store) {r : ExecutionRow}
    (hr : r ∈ s.executions) (hst : r.status = ExecutionStatus.RUNNING) :
    r.id ∈ runningIds s :=
  List.mem_map.mpr ⟨r, List.mem_filter.mpr ⟨hr, by simp [hst]⟩, rfl⟩

/-- C8: after the recovery sweep no execution row is RUNNING, and the value
returned equals the number of rows that were RUNNING before the sweep. -/
theorem recover_spec (s : Store) :
    (∀ r ∈ (RecoveryManager.recover s).1.executions,
        r.status ≠ ExecutionStatus.RUNNING) ∧
    (RecoveryManager.recover s).2 =
      s.executions.countP (fun r => r.status = ExecutionStatus.RUNNING) := by
  constructor
  · intro r hr
    rw [recover_executions_eq] at hr
    obtain ⟨pre, hpre, heq⟩ := List.mem_map.mp hr
    by_cases hid : pre.id ∈ runningIds s
    · rw [if_pos hid] at heq
      rw [← heq]
      simp
    · rw [if_neg hid] at heq
      rw [← heq]
      intro hst
      exact hid (running_mem_runningIds s hpre hst)
  · simp only [RecoveryManager.recover]
    split
    · next h =>
        rw [List.isEmpty_iff, List.map_eq_nil_iff, List.filter_eq_nil_iff]
          at h
        rw [List.countP_eq_length_filter, List.filter_eq_nil_iff.mpr h]
        rfl
    · simp [List.countP_eq_length_filter]

/-- C8 witness: a store holding one RUNNING and one SUCCESS row. -/
def c8Base : DateTime := ⟨2024, 1, 1, 10, 0, 0, 0⟩

/-- The RUNNING row of the C8 witness store. -/
def c8Running : ExecutionRow :=
  { id := 1, job_id := 1, status := ExecutionStatus.RUNNING, attempt := 1,
    started_at := some c8Base, completed_at := none, duration_seconds := none,
    result := none, error_message := none, traceback := none }

/-- The SUCCESS row of the C8 witness store. -/
def c8Done : ExecutionRow :=
  { id := 2, job_id := 1, status := ExecutionStatus.SUCCESS, attempt := 1,
    started_at := some c8Base, completed_at := none,
    duration_seconds := some 1, result := some (PyValue.vint 5),
    error_message := none, traceback := none }

/-- The C8 witness store. -/
def c8Store : Store :=
  { jobs := [], executions := [c8Running, c8Done], schedules := [],
    next_execution_id := 3 }

/-- C8 witness: on the concrete store the sweep leaves no RUNNING row and
returns 1. -/
theorem recover_spec_witness :
    ((RecoveryManager.recover c8Store).1.executions.all
      (fun r => r.status ≠ ExecutionStatus.RUNNING)) = true ∧
    (RecoveryManager.recover c8Store).2 = 1 := by
  have h := recover_spec c8Store
  constructor
  · rw [List.all_eq_true]
    intro r hr
    simpa using h.1 r (by simpa using hr)
  · rw [h.2]
    decide

/-! ## Claim C5 — `completed_at` versus terminal status -/

/-- Start instant of the C5 rows. -/
def c5Dt : DateTime := ⟨2024, 1, 1, 12, 0, 0, 0⟩

/-- A RUNNING execution row orphaned by a crash (`completed_at` NULL). -/
def c5Row : ExecutionRow :=
  { id := 1, job_id := 1, status := ExecutionStatus.RUNNING, attempt := 1,
    started_at := some c5Dt, completed_at := none, duration_seconds := none,
    result := none, error_message := none, traceback := none }

/-- The C5 counterexample store. -/
def c5Store : Store :=
  { jobs := [], executions := [c5Row], schedules := [],
    next_execution_id := 2 }

/-- C5 counterexample: the recovery sweep turns the RUNNING row into a
FAILED (terminal) row whose `completed_at` is still NULL — the UPDATE writes
only `status`. -/
theorem recover_completed_at_counterexample :
    (RecoveryManager.recover c5Store).1.executions =
      [{ c5Row with status := ExecutionStatus.FAILED }] ∧
    ({ c5Row with status := ExecutionStatus.FAILED }).completed_at = none ∧
    ({ c5Row with status := ExecutionStatus.FAILED }).status ≠
      ExecutionStatus.RUNNING := by
  decide

/-- C5 amended: the recovery sweep leaves every row's `completed_at`
untouched (so a swept row stays NULL), and `execute_job` persists its
terminal execution with `completed_at = NULL` — both in the returned
`Execution` and in the updated row.  The `RUNNING → completed_at IS NULL`
direction is not endangered by either operation (recovery leaves no RUNNING
row, `execute_job` writes NULL), but the `terminal → completed_at IS NOT
NULL` direction fails. -/
theorem completed_at_after_persist :
    (∀ s : Store,
      (RecoveryManager.recover s).1.executions.map
          (fun r => r.completed_at) =
        s.executions.map (fun r => r.completed_at)) ∧
    (∀ (s : Store) (env : ExecEnv) (now : DateTime) (job : Job),
      (execute_job s env now job).2.2.completed_at = none ∧
      (execute_job s env now job).2.2.status = (env.fn env.calls).status ∧
      (∀ r ∈ (execute_job s env now job).1.executions,
        r.id = s.next_execution_id → r.completed_at = none)) := by
  constructor
  · intro s
    rw [recover_executions_eq, List.map_map]
    apply List.map_congr_left
    intro r _
    by_cases hid : r.id ∈ runningIds s <;> simp [hid]
  · intro s env now job
    refine ⟨rfl, rfl, ?_⟩
    intro r hr hid
    simp only [execute_job, JobRepository.create_execution,
      JobRepository.update_execution, ExecEnv.dispatch] at hr
    obtain ⟨pre, hpre, heq⟩ := List.mem_map.mp hr
    by_cases hmatch : (some pre.id : Option Nat) = some s.next_execution_id
    · rw [if_pos hmatch] at heq
      rw [← heq]
    · rw [if_neg hmatch] at heq
      rw [← heq] at hid
      exact absurd (congrArg some hid) hmatch

/-- C5 witness: the amended facts evaluated on the concrete crashed store
and on a concrete `execute_job` run. -/
theorem completed_at_after_persist_witness :
    (RecoveryManager.recover c5Store).1.executions.map
        (fun r => r.completed_at) = [none] ∧
    (execute_job c5Store ⟨fun _ => { status := ExecutionStatus.SUCCESS },
        0⟩ c5Dt { name := "j", function := some "f", id := some 1 }
      ).2.2.completed_at = none ∧
    ({ id := 2, job_id := 1, status := ExecutionStatus.SUCCESS, attempt := 1,
       started_at := some c5Dt, completed_at := none,
       duration_seconds := none, result := none, error_message := none,
       traceback := none } : ExecutionRow).completed_at = none := by
  have h := completed_at_after_persist
  refine ⟨?_, ?_, ?_⟩
  · rw [h.1 c5Store]
    decide
  · exact (h.2 c5Store ⟨fun _ => { status := ExecutionStatus.SUCCESS }, 0⟩
      c5Dt { name := "j", function := some "f", id := some 1 }).1
  · exact (h.2 c5Store ⟨fun _ => { status := ExecutionStatus.SUCCESS }, 0⟩
      c5Dt { name := "j", function := some "f", id := some 1 }).2.2
      { id := 2, job_id := 1, status := ExecutionStatus.SUCCESS, attempt := 1,
        started_at := some c5Dt, completed_at := none,
        duration_seconds := none, result := none, error_message := none,
        traceback := none }
      (by decide) (by decide)

/-! ## Claim C6 — executors always return an encoded result -/

/-- C6: every executor returns an `ExecutionResult` whose status is
SUCCESS, FAILED or TIMEOUT, and a user-function exception is encoded as
FAILED with `error` the exception message and `traceback` the stack string
(for the pool-backed executors, whenever the TIMEOUT branch did not fire). -/
theorem executor_result_encoded :
    (∀ (job : Job) (o : CallOutcome) (dur : ℚ) (exceeded : Bool),
      ((SyncExecutor.execute job o dur).status = ExecutionStatus.SUCCESS ∨
       (SyncExecutor.execute job o dur).status = ExecutionStatus.FAILED ∨
       (SyncExecutor.execute job o dur).status = ExecutionStatus.TIMEOUT) ∧
      ((AsyncExecutor.execute job o dur).status = ExecutionStatus.SUCCESS ∨
       (AsyncExecutor.execute job o dur).status = ExecutionStatus.FAILED ∨
       (AsyncExecutor.execute job o dur).status = ExecutionStatus.TIMEOUT) ∧
      ((ThreadExecutor.execute job exceeded o dur).status =
          ExecutionStatus.SUCCESS ∨
       (ThreadExecutor.execute job exceeded o dur).status =
          ExecutionStatus.FAILED ∨
       (ThreadExecutor.execute job exceeded o dur).status =
          ExecutionStatus.TIMEOUT) ∧
      ((ProcessExecutor.execute job exceeded o dur).status =
          ExecutionStatus.SUCCESS ∨
       (ProcessExecutor.execute job exceeded o dur).status =
          ExecutionStatus.FAILED ∨
       (ProcessExecutor.execute job exceeded o dur).status =
          ExecutionStatus.TIMEOUT)) ∧
    (∀ (job : Job) (msg tb : String) (dur : ℚ),
      SyncExecutor.execute job (CallOutcome.exn msg tb) dur =
        { status := ExecutionStatus.FAILED, error := some msg,
          traceback := some tb, duration_seconds := some dur } ∧
      AsyncExecutor.execute job (CallOutcome.exn msg tb) dur =
        { status := ExecutionStatus.FAILED, error := some msg,
          traceback := some tb, duration_seconds := some dur }) ∧
    (∀ (job : Job) (msg tb : String) (dur : ℚ) (exceeded : Bool),
      ¬ (timeoutTruthy job.timeout_seconds = true ∧ exceeded = true) →
      ThreadExecutor.execute job exceeded (CallOutcome.exn msg tb) dur =
        { status := ExecutionStatus.FAILED, error := some msg,
          traceback := some tb, duration_seconds := some dur } ∧
      ProcessExecutor.execute job exceeded (CallOutcome.exn msg tb) dur =
        { status := ExecutionStatus.FAILED, error := some msg,
          traceback := some tb, duration_seconds := some dur }) := by
  refine ⟨?_, ?_, ?_⟩
  · intro job o dur exceeded
    refine ⟨?_, ?_, ?_, ?_⟩ <;>
      simp only [SyncExecutor.execute, AsyncExecutor.execute,
        ThreadExecutor.execute, ProcessExecutor.execute] <;>
      (try split) <;> cases o <;> simp [encodeOutcome]
  · intro job msg tb dur
    exact ⟨rfl, rfl⟩
  · intro job msg tb dur exceeded h
    have hcond : ¬ (timeoutTruthy job.timeout_seconds && exceeded) = true := by
      simpa [Bool.and_eq_true] using h
    constructor <;>
      simp [ThreadExecutor.execute, ProcessExecutor.execute, hcond,
        encodeOutcome]

/-- C6 witness: a raising INLINE job and a raising THREAD job without
timeout expiry, plus the status triple at a concrete successful call. -/
theorem executor_result_encoded_witness :
    SyncExecutor.execute { name := "boom", function := some "m.boom" }
        (CallOutcome.exn "division by zero" "Traceback ...") 1 =
      { status := ExecutionStatus.FAILED, error := some "division by zero",
        traceback := some "Traceback ...", duration_seconds := some 1 } ∧
    ThreadExecutor.execute { name := "boom", function := some "m.boom" }
        false (CallOutcome.exn "division by zero" "Traceback ...") 1 =
      { status := ExecutionStatus.FAILED, error := some "division by zero",
        traceback := some "Traceback ...", duration_seconds := some 1 } ∧
    ((AsyncExecutor.execute { name := "ok", function := some "m.ok" }
        (CallOutcome.ok (PyValue.vint 5)) 1).status =
          ExecutionStatus.SUCCESS ∨
     (AsyncExecutor.execute { name := "ok", function := some "m.ok" }
        (CallOutcome.ok (PyValue.vint 5)) 1).status =
          ExecutionStatus.FAILED ∨
     (AsyncExecutor.execute { name := "ok", function := some "m.ok" }
        (CallOutcome.ok (PyValue.vint 5)) 1).status =
          ExecutionStatus.TIMEOUT) := by
  have h := executor_result_encoded
  exact ⟨(h.2.1 { name := "boom", function := some "m.boom" }
            "division by zero" "Traceback ..." 1).1,
         (h.2.2 { name := "boom", function := some "m.boom" }
            "division by zero" "Traceback ..." 1 false (by decide)).1,
         (h.1 { name := "ok", function := some "m.ok" }
            (CallOutcome.ok (PyValue.vint 5)) 1 false).2.1⟩

/-! ## Claim C7 — timeout behaviour per executor kind -/

/-- An ASYNC job with a 1-second timeout whose user function ran 10
seconds. -/
def c7Job : Job :=
  { name := "sleeper", function := some "time.sleep",
    job_type := JobType.ASYNC, timeout_seconds := some 1 }

/-- C7 counterexample: the async executor has no timeout branch at all — an
ASYNC job with `timeout_seconds = 1` whose call took 10 seconds still
returns SUCCESS, not TIMEOUT. -/
theorem async_timeout_counterexample :
    AsyncExecutor.execute c7Job (CallOutcome.ok PyValue.vnone) 10 =
      { status := ExecutionStatus.SUCCESS, result := some PyValue.vnone,
        duration_seconds := some 10 } ∧
    ExecutionStatus.SUCCESS ≠ ExecutionStatus.TIMEOUT := by
  decide

/-- C7 amended: only the THREAD and PROCESS executors enforce
`timeout_seconds`.  For them, a truthy timeout `n` whose wait expires yields
TIMEOUT with error `"Job timed out after <n>s"` (which contains the timeout
value); the SYNC and ASYNC executors never consult `timeout_seconds` and can
never return TIMEOUT. -/
theorem timeout_enforced_only_in_pools :
    (∀ (job : Job) (n : Int) (o : CallOutcome) (dur : ℚ),
      job.timeout_seconds = some n → n ≠ 0 →
      ThreadExecutor.execute job true o dur =
        { status := ExecutionStatus.TIMEOUT,
          error := some ("Job timed out after " ++ toString n ++ "s"),
          duration_seconds := some dur } ∧
      ProcessExecutor.execute job true o dur =
        { status := ExecutionStatus.TIMEOUT,
          error := some ("Job timed out after " ++ toString n ++ "s"),
          duration_seconds := some dur }) ∧
    (∀ (n : Int), ∃ l r : String,
      "Job timed out after " ++ toString n ++ "s" = l ++ toString n ++ r) ∧
    (∀ (job : Job) (o : CallOutcome) (dur : ℚ),
      (SyncExecutor.execute job o dur).status ≠ ExecutionStatus.TIMEOUT ∧
      (AsyncExecutor.execute job o dur).status ≠ ExecutionStatus.TIMEOUT) := by
  refine ⟨?_, ?_, ?_⟩
  · intro job n o dur hset hnz
    constructor <;>
      simp [ThreadExecutor.execute, ProcessExecutor.execute, timeoutTruthy,
        hset, hnz]
  · intro n
    exact ⟨"Job timed out after ", "s", rfl⟩
  · intro job o dur
    constructor <;> cases o <;>
      simp [SyncExecutor.execute, AsyncExecutor.execute, encodeOutcome]

/-- C7 witness: the S3 scenario — a THREAD job with `timeout_seconds = 1`
that overran returns TIMEOUT with error `"Job timed out after 1s"`, which
contains `"1"`. -/
theorem timeout_enforced_only_in_pools_witness :
    ThreadExecutor.execute
        { name := "sleeper", function := some "time.sleep",
          job_type := JobType.THREAD, timeout_seconds := some 1 } true
        (CallOutcome.ok PyValue.vnone) 1 =
      { status := ExecutionStatus.TIMEOUT,
        error := some "Job timed out after 1s",
        duration_seconds := some 1 } ∧
    ∃ l r : String, "Job timed out after 1s" = l ++ "1" ++ r := by
  have h := timeout_enforced_only_in_pools
  have h1 := (h.1
    { name := "sleeper", function := some "time.sleep",
      job_type := JobType.THREAD, timeout_seconds := some 1 } 1
    (CallOutcome.ok PyValue.vnone) 1 rfl (by decide)).1
  have h2 := h.2.1 1
  constructor
  · rw [h1]
    rfl
  · obtain ⟨l, r, hlr⟩ := h2
    exact ⟨l, r, hlr⟩

/-! ## Claim C10 — what `get_job` returns for a stored job -/

/-- Exactly the row `create_job` writes for a job named `"t"` whose function
is `m.f` with empty args and kwargs: `function_path = "m.f"`,
`args_json = "[]"`, `kwargs_json = "{}"`. -/
def c10Row : JobRow :=
  { id := 1, name := "t", function_path := "m.f", args_json := some "[]",
    kwargs_json := some "{}", job_type := JobType.SYNC, max_retries := 3,
    timeout_seconds := none, idempotency_key := none }

/-- The C10 store holding that row. -/
def c10Store : Store :=
  { jobs := [c10Row], executions := [], schedules := [],
    next_execution_id := 1 }

/-- C10 (code bug): the job_id is present, yet `get_job` raises
`json.JSONDecodeError` instead of returning a `Job` with `function = None`:
the shifted read feeds `row[2] = function_path = "m.f"` — not a JSON
document — to `json.loads`, while the columns it was meant to read
(`args_json = "[]"`, `kwargs_json = "{}"`) would have decoded fine. -/
theorem get_job_raises_on_stored_row :
    c10Store.jobs.find? (fun r => r.id = 1) = some c10Row ∧
    JobRepository.get_job c10Store 1 = Except.error "json.JSONDecodeError" ∧
    json_loads_ok "m.f" = false ∧
    json_loads_ok "[]" = true ∧
    json_loads_ok "{}" = true := by
  refine ⟨?_, ?_, ?_, ?_, ?_⟩ <;> decide

/-! ## Claim C3 — the five-field `*/5 * * * *` cron expression -/

/-- 2024-01-01 (a Monday) 12:05:00. -/
def c3T1205 : DateTime := ⟨2024, 1, 1, 12, 5, 0, 0⟩

/-- 2024-01-01 12:06:00. -/
def c3T1206 : DateTime := ⟨2024, 1, 1, 12, 6, 0, 0⟩

/-- 2024-01-01 12:10:00. -/
def c3T1210 : DateTime := ⟨2024, 1, 1, 12, 10, 0, 0⟩

/-- C3 (code bug): `parse` checks `startswith("*/")` before trying the
five-field form, so the full expression `"*/5 * * * *"` is swallowed by the
`*/N` shorthand branch: the whole string becomes the `minute` field.  No
`_match_field` pattern matches that string, so `should_run_now` is `False`
at every instant — including 12:05 and 12:10, where the parser's and
matcher's own doc-examples (and the spec) require `True`. -/
theorem cron_every5_never_matches :
    CronParser.parse "*/5 * * * *" =
      Except.ok { minute := "*/5 * * * *" } ∧
    CronParser.should_run_now { minute := "*/5 * * * *" } c3T1205 =
      Except.ok false ∧
    CronParser.should_run_now { minute := "*/5 * * * *" } c3T1210 =
      Except.ok false ∧
    CronParser.should_run_now { minute := "*/5 * * * *" } c3T1206 =
      Except.ok false ∧
    CronParser.match_field "*/5" 5 = Except.ok true := by
  refine ⟨?_, ?_, ?_, ?_, ?_⟩ <;> decide

/-! ## Claim C1 — idempotency short-circuit of `execute_job` -/

/-- The job row of the C1 store, keyed `"K"`. -/
def c1JobRow : JobRow :=
  { id := 1, name := "task", function_path := "m.f", args_json := some "[]",
    kwargs_json := some "{}", job_type := JobType.SYNC, max_retries := 3,
    timeout_seconds := none, idempotency_key := some "K" }

/-- The persisted prior SUCCESS execution of that job, result `42`. -/
def c1PriorRow : ExecutionRow :=
  { id := 1, job_id := 1, status := ExecutionStatus.SUCCESS, attempt := 1,
    started_at := some ⟨2024, 1, 1, 9, 0, 0, 0⟩,
    completed_at := some ⟨2024, 1, 1, 9, 0, 5, 0⟩, duration_seconds := some 5,
    result := some (PyValue.vint 42), error_message := none,
    traceback := none }

/-- The C1 store: job with idempotency key `"K"` and its prior SUCCESS. -/
def c1Store : Store :=
  { jobs := [c1JobRow], executions := [c1PriorRow], schedules := [],
    next_execution_id := 2 }

/-- The executor environment at the second request: the user function has
run once already and would return `7` if invoked again. -/
def c1Env : ExecEnv :=
  { fn := fun _ => { status := ExecutionStatus.SUCCESS,
                     result := some (PyValue.vint 7),
                     duration_seconds := some 1 },
    calls := 1 }

/-- The in-memory job being re-executed. -/
def c1Job : Job :=
  { name := "task", function := some "m.f", id := some 1,
    idempotency_key := some (PyValue.vstr "K") }

/-- C1 counterexample: re-running `execute_job` on a job whose idempotency
key already has a persisted SUCCESS (result 42) dispatches the user function
again (call counter 1 → 2) and returns the fresh dispatch's result 7, not
the prior 42 — `execute_job` never consults `check_idempotency`, although
the guard would have found the prior SUCCESS. -/
theorem execute_job_ignores_idempotency :
    (execute_job c1Store c1Env ⟨2024, 1, 2, 9, 0, 0, 1⟩ c1Job).2.2.result =
      some (PyValue.vint 7) ∧
    (execute_job c1Store c1Env ⟨2024, 1, 2, 9, 0, 0, 1⟩ c1Job).2.1.calls = 2 ∧
    some (PyValue.vint 7) ≠ some (PyValue.vint 42) ∧
    JobRepository.find_idempotent_execution c1Store "K" = some c1PriorRow := by
  refine ⟨rfl, rfl, by decide, by decide⟩

/-- C1 amended: `IdempotencyManager.check_idempotency` does return a
synthesised SUCCESS result carrying the prior SUCCESS execution's `result`
and `duration_seconds`, but `Orchestrator.execute_job` never invokes it:
every call — whatever the store holds — dispatches the user function exactly
once more and returns that dispatch's `result` and `status`. -/
theorem check_idempotency_unwired :
    (∀ (s : Store) (key : String) (e : ExecutionRow),
      JobRepository.find_idempotent_execution s key = some e →
      IdempotencyManager.check_idempotency s key =
        some { status := ExecutionStatus.SUCCESS, result := e.result,
               error := none, traceback := none,
               duration_seconds := e.duration_seconds }) ∧
    (∀ (s : Store) (env : ExecEnv) (now : DateTime) (job : Job),
      (execute_job s env now job).2.1.calls = env.calls + 1 ∧
      (execute_job s env now job).2.2.result = (env.fn env.calls).result ∧
      (execute_job s env now job).2.2.status = (env.fn env.calls).status) := by
  constructor
  · intro s key e h
    by_cases hk : key = ""
    · rw [JobRepository.find_idempotent_execution, if_pos hk] at h
      exact absurd h (by simp)
    · rw [IdempotencyManager.check_idempotency, if_neg hk, h]
  · intro s env now job
    exact ⟨rfl, rfl, rfl⟩

/-- C1 witness: the amended facts evaluated on the concrete keyed store. -/
theorem check_idempotency_unwired_witness :
    IdempotencyManager.check_idempotency c1Store "K" =
      some { status := ExecutionStatus.SUCCESS,
             result := some (PyValue.vint 42), error := none,
             traceback := none, duration_seconds := some 5 } ∧
    (execute_job c1Store c1Env ⟨2024, 1, 2, 9, 0, 0, 1⟩ c1Job).2.1.calls =
      c1Env.calls + 1 := by
  have h := check_idempotency_unwired
  constructor
  · have h1 := h.1 c1Store "K" c1PriorRow (by decide)
    rw [h1]
    decide
  · exact (h.2 c1Store c1Env ⟨2024, 1, 2, 9, 0, 0, 1⟩ c1Job).1

/-! ## Claim C4 — duplicate suppression in the Scheduler -/

/-- The job row enqueued by the C4 schedule. -/
def c4JobRow : JobRow :=
  { id := 1, name := "j", function_path := "m.f", args_json := some "[]",
    kwargs_json := some "{}", job_type := JobType.SYNC, max_retries := 3,
    timeout_seconds := none, idempotency_key := none }

/-- The one-shot trigger instant. -/
def c4RunAt : DateTime := ⟨2024, 1, 1, 12, 0, 0, 0⟩

/-- An enabled one-shot (`run_at`) schedule. -/
def c4Sched : ScheduleRow :=
  { id := 1, job_id := 1, cron_expression := none, run_at := some c4RunAt,
    enabled := true }

/-- The C4 store. -/
def c4Store : Store :=
  { jobs := [c4JobRow], executions := [], schedules := [c4Sched],
    next_execution_id := 1 }

/-- C4 (code bug): the one-shot trigger is due on both of two successive
ticks after `run_at` — `_should_execute` is exactly `now ≥ run_at`, there is
no firing mark — yet the queue stays empty: each tick's `_enqueue_job` calls
`get_job`, which raises `json.JSONDecodeError` on the column-shifted row of
every store-created job, aborting the tick.  The Scheduler never enqueues
the Job at all, instead of enqueueing it once per trigger occurrence. -/
theorem scheduler_never_enqueues_stored_job :
    Scheduler.should_execute c4Sched ⟨2024, 1, 1, 12, 1, 0, 0⟩ =
      Except.ok true ∧
    Scheduler.should_execute c4Sched ⟨2024, 1, 1, 12, 2, 0, 0⟩ =
      Except.ok true ∧
    JobRepository.get_job c4Store 1 = Except.error "json.JSONDecodeError" ∧
    Scheduler.tick c4Store ⟨2024, 1, 1, 12, 2, 0, 0⟩
        (Scheduler.tick c4Store ⟨2024, 1, 1, 12, 1, 0, 0⟩ []) = [] := by
  refine ⟨?_, ?_, ?_, ?_⟩ <;> decide

end Orchestrator
